import Mathlib

/-!
Shallow embedding of `semantic_model_generator/data_processing/cte_utils.py`.

The protobuf messages (`semantic_model_pb2`) are generated from a proto file
that is not part of the source tree; their field sets are modelled from the
spec's data-model section (§3).  SQL text handled by `sqlglot` is modelled at
the AST level: a statement is a `Query` (an optional WITH clause holding a
list of CTE entries, plus an opaque statement body), and a column expression
is an `SqlNode` tree.  The external expression parser `sqlglot.parse_one` is
a parameter `parseExpr : String → Option SqlNode` of every function that the
Python code lets parse a column expression.
-/

/-- Modelled from the spec: column kind tag of the proto enum `ColumnKind`
(`dimension`, `measure`, `time_dimension`, plus the proto zero default).
In the generated Python code `measure` is the numeral 2; the source test
`col.kind != 2` is rendered as inequality with `measure`. -/
inductive ColumnKind where
  | column_kind_unspecified
  | dimension
  | measure
  | time_dimension
deriving DecidableEq, Repr

/-- Modelled from the spec: the canonical `Column` record of §3 with proto
scalar defaults (empty string / false / empty sequence). -/
structure Column where
  name : String := ""
  synonyms : List String := []
  description : String := ""
  expr : String := ""
  data_type : String := ""
  kind : ColumnKind := ColumnKind.column_kind_unspecified
  unique : Bool := false
  default_aggregation : String := ""
  sample_values : List String := []
deriving DecidableEq, Repr

/-- Modelled from the spec: a split-shape `dimensions` entry (§3). -/
structure Dimension where
  name : String := ""
  synonyms : List String := []
  description : String := ""
  expr : String := ""
  data_type : String := ""
  unique : Bool := false
  sample_values : List String := []
deriving DecidableEq, Repr

/-- Modelled from the spec: a split-shape `time_dimensions` entry (§3). -/
structure TimeDimension where
  name : String := ""
  synonyms : List String := []
  description : String := ""
  expr : String := ""
  data_type : String := ""
  unique : Bool := false
  sample_values : List String := []
deriving DecidableEq, Repr

/-- Modelled from the spec: a split-shape `measures` entry (§3), a
dimension-like record that additionally carries `default_aggregation`. -/
structure Measure where
  name : String := ""
  synonyms : List String := []
  description : String := ""
  expr : String := ""
  data_type : String := ""
  unique : Bool := false
  default_aggregation : String := ""
  sample_values : List String := []
deriving DecidableEq, Repr

/-- Modelled from the spec: `FullyQualifiedTable` (§3). -/
structure FullyQualifiedTable where
  database : String := ""
  schema : String := ""
  table : String := ""
deriving DecidableEq, Repr

/-- Modelled from the spec: a `Table` (§3), carrying both the column shape
and the three split-shape sequences. -/
structure Table where
  name : String := ""
  description : String := ""
  base_table : FullyQualifiedTable := {}
  columns : List Column := []
  dimensions : List Dimension := []
  time_dimensions : List TimeDimension := []
  measures : List Measure := []
deriving DecidableEq, Repr

/-- Modelled from the spec: a `SemanticModel` is an ordered sequence of
tables (§3). -/
structure SemanticModel where
  tables : List Table := []
deriving DecidableEq, Repr

deriving instance DecidableEq for Except

/-- Python's `str.lower()` as a character-wise map (the strings compared are
SQL identifiers and expressions). -/
def strLower (s : String) : String := ⟨s.data.map Char.toLower⟩

/-- A column expression AST as produced by the external SQL parser.  `agg`
stands for an aggregate-function node (`sqlglot.expressions.AggFunc`) and
`window` for a window-function node (`sqlglot.expressions.Window`); the other
constructors are the non-flagged node kinds the classifier walks past. -/
inductive SqlNode where
  | col (name : String)
  | lit (value : Int)
  | func (name : String) (args : List SqlNode)
  | agg (name : String) (args : List SqlNode)
  | window (inner : SqlNode) (partition_by : List SqlNode)
  | binop (op : String) (lhs rhs : SqlNode)

/-- Is this node an aggregate-function node? -/
def SqlNode.isAggNode : SqlNode → Bool
  | .agg _ _ => true
  | _ => false

/-- Is this node a window-function node? -/
def SqlNode.isWindowNode : SqlNode → Bool
  | .window _ _ => true
  | _ => false

mutual
/-- All nodes of the tree, the root included: the walk underlying
`parsed.find_all(...)`. -/
def SqlNode.allNodes : SqlNode → List SqlNode
  | .col s => [.col s]
  | .lit v => [.lit v]
  | .func n args => .func n args :: SqlNode.allNodesList args
  | .agg n args => .agg n args :: SqlNode.allNodesList args
  | .window inner pb => .window inner pb :: (SqlNode.allNodes inner ++ SqlNode.allNodesList pb)
  | .binop op l r => .binop op l r :: (SqlNode.allNodes l ++ SqlNode.allNodes r)

/-- All nodes of each tree in a list, concatenated. -/
def SqlNode.allNodesList : List SqlNode → List SqlNode
  | [] => []
  | x :: xs => SqlNode.allNodes x ++ SqlNode.allNodesList xs
end

/-- `_LOGICAL_TABLE_PREFIX = "__"`. -/
def _LOGICAL_TABLE_PREFIX : String := "__"

/-- `is_logical_table`: true iff the name starts with the logical-table
prefix and is strictly longer than it (Python `startswith` is a character
prefix test). -/
def is_logical_table (table_name : String) : Bool :=
  _LOGICAL_TABLE_PREFIX.data.isPrefixOf table_name.data &&
    _LOGICAL_TABLE_PREFIX.length < table_name.length

/-- `logical_table_name`: prefix the table's name, e.g. `__fact`. -/
def logical_table_name (table : Table) : String :=
  _LOGICAL_TABLE_PREFIX ++ table.name

/-- `fully_qualified_table_name`: `database.schema.table`, omitting absent
qualifiers from the left. -/
def fully_qualified_table_name (table : FullyQualifiedTable) : String :=
  let fqn := table.table
  let fqn := if table.schema.length > 0 then table.schema ++ "." ++ fqn else fqn
  let fqn := if table.database.length > 0 then table.database ++ "." ++ fqn else fqn
  fqn

/-- `is_aggregation_expr`: parse the column's `expr`, collect every
aggregate-function node and every window-function node of the tree, and
flag an aggregation only when aggregates are present and windows absent;
aggregations are only legal on measure columns (`col.kind != 2` raises). -/
def is_aggregation_expr (parseExpr : String → Option SqlNode) (col : Column) :
    Except String Bool :=
  match parseExpr col.expr with
  | none => Except.error "sqlglot ParseError"
  | some parsed =>
    let agg_func := (SqlNode.allNodes parsed).filter SqlNode.isAggNode
    let window := (SqlNode.allNodes parsed).filter SqlNode.isWindowNode
    if agg_func.length > 0 && window.length == 0 then
      if col.kind ≠ ColumnKind.measure then
        Except.error "Only allow aggregation expressions for measures."
      else Except.ok true
    else Except.ok false

/-- A CTE entry of a WITH clause: its alias and its (parsed) SELECT body,
kept as the projection list plus the FROM target. -/
structure Cte where
  alias_ : String := ""
  projections : List String := []
  fromTable : String := ""
deriving DecidableEq, Repr

/-- A parsed SQL statement: optional WITH clause (a present clause is a list
of CTE entries; `sqlglot` never parses a WITH clause with zero entries) and
an opaque statement body. -/
structure Query where
  withClause : Option (List Cte) := none
  body : String := ""
deriving DecidableEq, Repr

/-- `remove_ltable_cte`: require a WITH clause whose first CTE entry has a
logical-table alias; drop the whole WITH clause when it has exactly one
entry, else drop just the first entry. -/
def remove_ltable_cte (sql_w_ltable_cte : Query) : Except String Query :=
  match sql_w_ltable_cte.withClause with
  | none => Except.error "Must contain the logical CTE."
  | some ctes =>
    match ctes with
    | [] => Except.error "list index out of range"
    | first :: rest =>
      if is_logical_table first.alias_ then
        if rest.isEmpty then
          Except.ok { sql_w_ltable_cte with withClause := none }
        else
          Except.ok { sql_w_ltable_cte with withClause := some rest }
      else Except.error "Must contain the logical CTE."

/-- The rendering of one projected column inside `_generate_cte_for`:
`expr as name` unless the two agree case-insensitively. -/
def _get_col_expr (column : Column) : String :=
  if strLower column.expr ≠ strLower column.name then
    column.expr ++ " as " ++ column.name
  else column.expr

/-- The key set of the dict comprehension
`{col.name: col for col in table.columns if not is_aggregation_expr(col)}`:
the names of columns the classifier does not flag, classifier errors
propagating. -/
def non_agg_column_names (parseExpr : String → Option SqlNode) :
    List Column → Except String (List String)
  | [] => Except.ok []
  | c :: cs => do
    let b ← is_aggregation_expr parseExpr c
    let rest ← non_agg_column_names parseExpr cs
    Except.ok (if b then rest else c.name :: rest)

/-- `_generate_cte_for`: the synthesized logical-table CTE.  Columns whose
name is a key of the non-aggregated-columns dict are projected (in original
column order) from the fully qualified base table, under the logical table
name. -/
def _generate_cte_for (parseExpr : String → Option SqlNode) (table : Table) :
    Except String Cte := do
  let names ← non_agg_column_names parseExpr table.columns
  Except.ok
    { alias_ := logical_table_name table
      projections :=
        (table.columns.filter (fun col => names.contains col.name)).map _get_col_expr
      fromTable := fully_qualified_table_name table.base_table }

/-- Conversion of one split-shape `dimensions` entry to a `Column`
(`context_to_column_format` first loop); fields not assigned by the source
keep their proto defaults. -/
def dimensionToColumn (d : Dimension) : Column :=
  { kind := ColumnKind.dimension
    name := d.name
    synonyms := d.synonyms
    description := d.description
    expr := d.expr
    data_type := d.data_type
    unique := d.unique
    sample_values := d.sample_values }

/-- Conversion of one split-shape `time_dimensions` entry to a `Column`
(`context_to_column_format` second loop). -/
def timeDimensionToColumn (td : TimeDimension) : Column :=
  { kind := ColumnKind.time_dimension
    name := td.name
    synonyms := td.synonyms
    description := td.description
    expr := td.expr
    data_type := td.data_type
    unique := td.unique
    sample_values := td.sample_values }

/-- Conversion of one split-shape `measures` entry to a `Column`
(`context_to_column_format` third loop).  The source assigns
`default_aggregation` but never `unique`, which therefore stays at its
proto default `false`. -/
def measureToColumn (m : Measure) : Column :=
  { kind := ColumnKind.measure
    name := m.name
    synonyms := m.synonyms
    description := m.description
    expr := m.expr
    data_type := m.data_type
    default_aggregation := m.default_aggregation
    sample_values := m.sample_values }

/-- The per-table body of `context_to_column_format`: reject a table filling
both shapes, keep a column-shape table as is, and otherwise append the
converted dimensions, time dimensions and measures (in that order) to the
column sequence and clear the split sequences.  The source's error message
is a plain (non-f) string, so the braces are literal text. -/
def convertTable (table : Table) : Except String Table :=
  let column_format := decide (0 < table.columns.length)
  let dimension_measure_format :=
    decide (0 < table.dimensions.length) ||
      decide (0 < table.time_dimensions.length) ||
      decide (0 < table.measures.length)
  if column_format && dimension_measure_format then
    Except.error
      "table \x7btable.name\x7d defines both columns and dimensions/time_dimensions/measures."
  else if column_format then Except.ok table
  else
    Except.ok
      { table with
        columns := table.columns ++ table.dimensions.map dimensionToColumn ++
          table.time_dimensions.map timeDimensionToColumn ++
          table.measures.map measureToColumn
        dimensions := []
        time_dimensions := []
        measures := [] }

/-- The table loop of `context_to_column_format`, fail-fast on the first
offending table. -/
def convertTables : List Table → Except String (List Table)
  | [] => Except.ok []
  | t :: ts => do
    let t' ← convertTable t
    let ts' ← convertTables ts
    Except.ok (t' :: ts')

/-- `context_to_column_format`: copy the model and normalize every table to
the column shape. -/
def context_to_column_format (ctx : SemanticModel) : Except String SemanticModel := do
  let ts ← convertTables ctx.tables
  Except.ok { ctx with tables := ts }

/-- The inner `generate_full_logical_table_ctes`: one synthesized CTE per
table, in model order. -/
def generate_full_logical_table_ctes (parseExpr : String → Option SqlNode) :
    List Table → Except String (List Cte)
  | [] => Except.ok []
  | t :: ts => do
    let c ← _generate_cte_for parseExpr t
    let cs ← generate_full_logical_table_ctes parseExpr ts
    Except.ok (c :: cs)

/-- `expand_all_logical_tables_as_ctes`: canonicalize the model, synthesize
one CTE per table, and splice them into the query's WITH clause.  A query
without a WITH clause receives the synthesized list as its new clause (the
source reads `new_withs[0]`, an IndexError when the model has no tables); a
query with a WITH clause gets the synthesized CTEs prepended before its
existing entries. -/
def expand_all_logical_tables_as_ctes (parseExpr : String → Option SqlNode)
    (sql_query : Query) (model : SemanticModel) : Except String Query := do
  let ctx ← context_to_column_format model
  let ctes ← generate_full_logical_table_ctes parseExpr ctx.tables
  match sql_query.withClause with
  | none =>
    match ctes with
    | [] => Except.error "list index out of range"
    | first :: rest =>
      Except.ok { sql_query with withClause := some (first :: rest) }
  | some existing =>
    Except.ok { sql_query with withClause := some (ctes ++ existing) }

/-- Iterated application of `remove_ltable_cte`, as in the spec's round-trip
property (repeated stripping). -/
def stripN : Nat → Query → Except String Query
  | 0, q => Except.ok q
  | n + 1, q => do
    let q' ← remove_ltable_cte q
    stripN n q'

/-- A concrete stand-in for the external expression parser, used to evaluate
the development on closed inputs. -/
def demoParse : String → Option SqlNode
  | "x" => some (SqlNode.col "x")
  | "region_code" => some (SqlNode.col "region_code")
  | "SUM(amount)" => some (SqlNode.agg "SUM" [SqlNode.col "amount"])
  | "SUM(x)" => some (SqlNode.agg "SUM" [SqlNode.col "x"])
  | _ => none

/-- Scenario-1 table: dimension `region` over `region_code` and measure
`total` over `SUM(amount)`, based on `db.sch.fact_tbl`. -/
def demoTable : Table :=
  { name := "fact"
    base_table := { database := "db", schema := "sch", table := "fact_tbl" }
    columns :=
      [ { name := "region", expr := "region_code", kind := ColumnKind.dimension }
      , { name := "total", expr := "SUM(amount)", kind := ColumnKind.measure } ] }

/-- The CTE synthesized for `demoTable`. -/
def demoCte : Cte :=
  { alias_ := "__fact"
    projections := ["region_code as region"]
    fromTable := "db.sch.fact_tbl" }

/-- A model whose single table has the empty name, so its logical CTE alias
is the bare prefix `__`. -/
def emptyNameModel : SemanticModel :=
  { tables :=
      [ { name := ""
          base_table := { table := "t" }
          columns := [{ name := "x", expr := "x", kind := ColumnKind.dimension }] } ] }

/-- A table populating both the column shape and the `dimensions` split
sequence. -/
def mixedTable (nm : String) : Table :=
  { name := nm
    columns := [{ name := "c", expr := "c", kind := ColumnKind.dimension }]
    dimensions := [{ name := "d", expr := "d" }] }

/-- A split-shape model whose single measure entry has `unique = true`. -/
def measureUniqueModel : SemanticModel :=
  { tables :=
      [ { name := "t"
          base_table := { table := "t" }
          measures := [{ name := "m", expr := "m", data_type := "NUMBER", unique := true }] } ] }

/-- A split-shape table with one dimension, one time dimension and one
measure, each carrying `unique = true`. -/
def splitDemoTable : Table :=
  { name := "s"
    base_table := { table := "s" }
    dimensions := [{ name := "d", expr := "d", unique := true }]
    time_dimensions :=
      [{ name := "event_date", expr := "event_date", data_type := "DATE", unique := true }]
    measures :=
      [{ name := "m", expr := "m", unique := true, default_aggregation := "sum" }] }

/-- The table `convertTable` produces from `splitDemoTable`: the measure's
column has `unique = false`. -/
def splitDemoResult : Table :=
  { name := "s"
    base_table := { table := "s" }
    columns :=
      [ { name := "d", expr := "d", kind := ColumnKind.dimension, unique := true }
      , { name := "event_date", expr := "event_date", data_type := "DATE"
          kind := ColumnKind.time_dimension, unique := true }
      , { name := "m", expr := "m", kind := ColumnKind.measure, unique := false
          default_aggregation := "sum" } ] }

/-- The column-shape model that canonicalizing `measureUniqueModel`
produces. -/
def canonDemoModel : SemanticModel :=
  { tables :=
      [ { name := "t"
          base_table := { table := "t" }
          columns :=
            [ { name := "m", expr := "m", data_type := "NUMBER"
                kind := ColumnKind.measure } ] } ] }

/-- A heap of protobuf message objects, one cell per `SemanticModel`, making
in-place mutation and aliasing expressible: `context_to_column_format` reads
the model at `ctxRef`, allocates a fresh cell for `ret` holding a deep copy
(`ret.CopyFrom(ctx)`), normalizes the tables of that fresh cell only, and
returns a reference to it; on failure the heap keeps the partially built
copy and no reference is returned. -/
def context_to_column_format_heap (h : List SemanticModel) (ctxRef : Nat) :
    List SemanticModel × Except String Nat :=
  let retRef := h.length
  let h1 := h ++ [h.getD ctxRef {}]
  match convertTables ((h1.getD retRef {}).tables) with
  | Except.error e => (h1, Except.error e)
  | Except.ok ts =>
    (h1.set retRef { h1.getD retRef {} with tables := ts }, Except.ok retRef)

/-- C3: `strip_logical_cte` fails with the ValidationError when the parsed
statement has no WITH clause or when the first CTE entry's alias is not a
logical table name; with exactly one CTE entry the entire WITH clause is
removed; with more than one, only the first entry is removed and the
remaining entries keep their relative order. -/
theorem remove_ltable_cte_behavior (q : Query) :
    (q.withClause = none →
      remove_ltable_cte q = Except.error "Must contain the logical CTE.") ∧
    (∀ c rest, q.withClause = some (c :: rest) → ¬ is_logical_table c.alias_ →
      remove_ltable_cte q = Except.error "Must contain the logical CTE.") ∧
    (∀ c, q.withClause = some [c] → is_logical_table c.alias_ →
      remove_ltable_cte q = Except.ok { q with withClause := none }) ∧
    (∀ c rest, q.withClause = some (c :: rest) → rest ≠ [] →
      is_logical_table c.alias_ →
      remove_ltable_cte q = Except.ok { q with withClause := some rest }) := by
  refine ⟨fun h => ?_, fun c rest h hl => ?_, fun c h hl => ?_, fun c rest h hne hl => ?_⟩
  · simp [remove_ltable_cte, h]
  · simp [remove_ltable_cte, h, hl]
  · simp [remove_ltable_cte, h, hl]
  · simp [remove_ltable_cte, h, hl, hne]

/-- Closed instances of the C3 theorem: a query with no WITH clause is
rejected, and a two-entry WITH clause headed by a logical CTE loses exactly
its first entry. -/
theorem remove_ltable_cte_behavior_witness :
    remove_ltable_cte { body := "SELECT 1" } =
      Except.error "Must contain the logical CTE." ∧
    remove_ltable_cte
        { withClause := some [{ alias_ := "__a" }, { alias_ := "other" }]
          body := "SELECT 2" } =
      Except.ok { withClause := some [{ alias_ := "other" }], body := "SELECT 2" } :=
  ⟨(remove_ltable_cte_behavior { body := "SELECT 1" }).1 rfl,
   (remove_ltable_cte_behavior _).2.2.2 { alias_ := "__a" } [{ alias_ := "other" }]
     rfl (by decide) (by decide)⟩

/-- C2: when the parsed expression has at least one aggregate-function node
and zero window-function nodes, the classifier errors on non-measure columns
and returns true on measure columns; in every other case it returns false
and raises no error. -/
theorem is_aggregation_expr_classification (parseExpr : String → Option SqlNode)
    (col : Column) (e : SqlNode) (hp : parseExpr col.expr = some e) :
    ((∃ n ∈ SqlNode.allNodes e, n.isAggNode = true) ∧
        (∀ n ∈ SqlNode.allNodes e, n.isWindowNode = false) →
      (col.kind ≠ ColumnKind.measure →
        is_aggregation_expr parseExpr col =
          Except.error "Only allow aggregation expressions for measures.") ∧
      (col.kind = ColumnKind.measure →
        is_aggregation_expr parseExpr col = Except.ok true)) ∧
    (¬ ((∃ n ∈ SqlNode.allNodes e, n.isAggNode = true) ∧
        (∀ n ∈ SqlNode.allNodes e, n.isWindowNode = false)) →
      is_aggregation_expr parseExpr col = Except.ok false) := by
  have hagg : (0 < ((SqlNode.allNodes e).filter SqlNode.isAggNode).length) ↔
      ∃ n ∈ SqlNode.allNodes e, n.isAggNode = true := by
    rw [List.length_pos]
    constructor
    · intro h
      rcases List.exists_mem_of_ne_nil _ h with ⟨n, hn⟩
      exact ⟨n, (List.mem_filter.mp hn).1, (List.mem_filter.mp hn).2⟩
    · rintro ⟨n, hn, ha⟩ hnil
      exact (List.filter_eq_nil_iff.mp hnil) n hn (by simp [ha])
  have hwin : (((SqlNode.allNodes e).filter SqlNode.isWindowNode).length = 0) ↔
      ∀ n ∈ SqlNode.allNodes e, n.isWindowNode = false := by
    rw [List.length_eq_zero]
    constructor
    · intro h n hn
      by_contra hb
      have : n ∈ (SqlNode.allNodes e).filter SqlNode.isWindowNode :=
        List.mem_filter.mpr ⟨hn, by simpa using hb⟩
      simp [h] at this
    · intro h
      exact List.filter_eq_nil_iff.mpr fun n hn => by simp [h n hn]
  constructor
  · rintro ⟨he, hw⟩
    have h1 : (0 < ((SqlNode.allNodes e).filter SqlNode.isAggNode).length) := hagg.mpr he
    have h2 : (((SqlNode.allNodes e).filter SqlNode.isWindowNode).length = 0) := hwin.mpr hw
    constructor
    · intro hk
      simp [is_aggregation_expr, hp, h1, h2, hk]
    · intro hk
      simp [is_aggregation_expr, hp, h1, h2, hk]
  · intro hnot
    rcases Decidable.not_and_iff_or_not.mp hnot with h | h
    · have h1 : ¬ (0 < ((SqlNode.allNodes e).filter SqlNode.isAggNode).length) :=
        fun hc => h (hagg.mp hc)
      simp [is_aggregation_expr, hp, h1]
    · have h2 : ¬ (((SqlNode.allNodes e).filter SqlNode.isWindowNode).length = 0) :=
        fun hc => h (hwin.mp hc)
      simp [is_aggregation_expr, hp, h2]

/-- Closed instance of the C2 theorem: `SUM(x)` on a dimension column is
rejected with the aggregation-misuse error. -/
theorem is_aggregation_expr_classification_witness :
    demoParse "SUM(x)" = some (SqlNode.agg "SUM" [SqlNode.col "x"]) ∧
    is_aggregation_expr demoParse { expr := "SUM(x)", kind := ColumnKind.dimension } =
      Except.error "Only allow aggregation expressions for measures." :=
  ⟨rfl,
   ((is_aggregation_expr_classification demoParse
        { expr := "SUM(x)", kind := ColumnKind.dimension }
        (SqlNode.agg "SUM" [SqlNode.col "x"]) rfl).1 (by decide)).1 (by decide)⟩

/-- C10: with a model whose table sequence is empty, `expand` fails on a
query with no WITH clause (the source indexes the first element of the empty
synthesized list), and returns a query with a WITH clause unchanged. -/
theorem expand_empty_model_behavior (parseExpr : String → Option SqlNode) (q : Query) :
    expand_all_logical_tables_as_ctes parseExpr q { tables := [] } =
      match q.withClause with
      | none => Except.error "list index out of range"
      | some _ => Except.ok q := by
  cases q with
  | mk w b => cases w <;> rfl

/-- The keys collected by the non-aggregated-columns dict comprehension are
exactly the names of the columns the classifier maps to `false`. -/
theorem non_agg_column_names_eq (parseExpr : String → Option SqlNode) :
    ∀ (cols : List Column) (names : List String),
      non_agg_column_names parseExpr cols = Except.ok names →
      names = (cols.filter fun c =>
        is_aggregation_expr parseExpr c = Except.ok false).map Column.name
  | [], names, h => by
    simp [non_agg_column_names] at h
    simp [h.symm]
  | c :: cs, names, h => by
    unfold non_agg_column_names at h
    cases heq : is_aggregation_expr parseExpr c with
    | error e => simp [heq, Bind.bind, Except.bind] at h
    | ok b =>
      simp only [heq, Bind.bind, Except.bind] at h
      cases hrec : non_agg_column_names parseExpr cs with
      | error e => simp [hrec] at h
      | ok rest =>
        have hr := non_agg_column_names_eq parseExpr cs rest hrec
        simp [hrec] at h
        cases b with
        | true =>
          simp at h
          subst h
          simp [List.filter_cons, heq, hr]
        | false =>
          simp at h
          subst h
          simp [List.filter_cons, heq, hr]

/-- C5: when the table's column names are distinct (a §3 data-model
invariant) and synthesis succeeds, the synthesized CTE projects exactly the
columns the classifier does not flag as aggregations, each rendered as
`expr as name` when `expr` and `name` differ case-insensitively and as
`expr` alone otherwise. -/
theorem generate_cte_projections (parseExpr : String → Option SqlNode)
    (t : Table) (c : Cte)
    (hnd : (t.columns.map Column.name).Nodup)
    (hok : _generate_cte_for parseExpr t = Except.ok c) :
    c.projections =
      (t.columns.filter fun col =>
          is_aggregation_expr parseExpr col = Except.ok false).map
        (fun col =>
          if strLower col.expr = strLower col.name then col.expr
          else col.expr ++ " as " ++ col.name) := by
  unfold _generate_cte_for at hok
  cases hn : non_agg_column_names parseExpr t.columns with
  | error e => simp [hn, Bind.bind, Except.bind] at hok
  | ok names =>
    simp [hn, Bind.bind, Except.bind] at hok
    have hnames := non_agg_column_names_eq parseExpr t.columns names hn
    have hfiltereq : t.columns.filter (fun col => decide (col.name ∈ names)) =
        t.columns.filter (fun col =>
          decide (is_aggregation_expr parseExpr col = Except.ok false)) := by
      apply List.filter_congr
      intro col hcol
      rw [decide_eq_decide]
      subst hnames
      simp only [List.mem_map, List.mem_filter, decide_eq_true_eq]
      constructor
      · rintro ⟨col2, ⟨hc2, hp2⟩, hname⟩
        have : col2 = col :=
          List.inj_on_of_nodup_map hnd hc2 hcol hname
        subst this
        exact hp2
      · intro hp
        exact ⟨col, ⟨hcol, hp⟩, rfl⟩
    rw [← hok]
    simp only [hfiltereq]
    apply List.map_congr_left
    intro col hcol
    unfold _get_col_expr
    by_cases hlow : strLower col.expr = strLower col.name
    · simp [hlow]
    · simp [hlow]

/-- Closed instance of the C5 theorem on the scenario-1 table: the measure
`SUM(amount)` is excluded and the dimension is aliased. -/
theorem generate_cte_projections_witness :
    (demoTable.columns.map Column.name).Nodup ∧
    _generate_cte_for demoParse demoTable = Except.ok demoCte ∧
    demoCte.projections =
      (demoTable.columns.filter fun col =>
          is_aggregation_expr demoParse col = Except.ok false).map
        (fun col =>
          if strLower col.expr = strLower col.name then col.expr
          else col.expr ++ " as " ++ col.name) :=
  ⟨by decide, by decide,
   generate_cte_projections demoParse demoTable demoCte (by decide) (by decide)⟩

/-- C7: a table populating both shapes makes canonicalization fail, but the
error message is a plain (non-formatted) string: it is the same literal text
whatever the offending table's name, so it does not identify the table. -/
theorem mixed_shape_error_does_not_name_table :
    context_to_column_format { tables := [mixedTable "orders"] } =
      Except.error
        "table \x7btable.name\x7d defines both columns and dimensions/time_dimensions/measures." ∧
    context_to_column_format { tables := [mixedTable "orders"] } =
      context_to_column_format { tables := [mixedTable "users"] } := by
  exact ⟨by decide, by decide⟩

/-- C4: on a query that already has a WITH clause, `expand` prepends all
synthesized CTEs, in model order, before the query's pre-existing CTEs,
which keep their relative order. -/
theorem expand_prepends_synthesized_ctes (parseExpr : String → Option SqlNode)
    (q : Query) (m ctx : SemanticModel) (gens existing : List Cte)
    (hctx : context_to_column_format m = Except.ok ctx)
    (hg : generate_full_logical_table_ctes parseExpr ctx.tables = Except.ok gens)
    (hw : q.withClause = some existing) :
    expand_all_logical_tables_as_ctes parseExpr q m =
      Except.ok { q with withClause := some (gens ++ existing) } := by
  unfold expand_all_logical_tables_as_ctes
  simp [hctx, hg, hw, Bind.bind, Except.bind]

/-- Closed instance of the C4 theorem (spec scenario 3): the synthesized
`__fact` CTE lands before the query's own `other` CTE. -/
theorem expand_prepends_synthesized_ctes_witness :
    context_to_column_format { tables := [demoTable] } =
      Except.ok { tables := [demoTable] } ∧
    generate_full_logical_table_ctes demoParse [demoTable] = Except.ok [demoCte] ∧
    expand_all_logical_tables_as_ctes demoParse
        { withClause := some [{ alias_ := "other", projections := ["1"] }]
          body := "SELECT * FROM other" }
        { tables := [demoTable] } =
      Except.ok
        { withClause := some [demoCte, { alias_ := "other", projections := ["1"] }]
          body := "SELECT * FROM other" } :=
  ⟨by decide, by decide,
   expand_prepends_synthesized_ctes demoParse
     { withClause := some [{ alias_ := "other", projections := ["1"] }]
       body := "SELECT * FROM other" }
     { tables := [demoTable] } { tables := [demoTable] }
     [demoCte] [{ alias_ := "other", projections := ["1"] }]
     (by decide) (by decide) rfl⟩

/-- One canonicalization step is a fixed point of `convertTable`. -/
theorem convertTable_idem {t t' : Table} (h : convertTable t = Except.ok t') :
    convertTable t' = Except.ok t' := by
  by_cases h1 : 0 < t.columns.length <;>
  by_cases h2 : 0 < t.dimensions.length <;>
  by_cases h3 : 0 < t.time_dimensions.length <;>
  by_cases h4 : 0 < t.measures.length <;>
  simp [convertTable, h1, h2, h3, h4] at h <;>
  (try subst h) <;>
  simp [convertTable, h1, h2, h3, h4]

/-- `convertTables` is a fixed point on its own successful output. -/
theorem convertTables_idem : ∀ {ts ts' : List Table},
    convertTables ts = Except.ok ts' → convertTables ts' = Except.ok ts'
  | [], ts', h => by
    simp [convertTables] at h
    subst h
    rfl
  | t :: ts, ts', h => by
    unfold convertTables at h
    cases ht : convertTable t with
    | error e => simp [ht, Bind.bind, Except.bind] at h
    | ok t1 =>
      cases hts : convertTables ts with
      | error e => simp [ht, hts, Bind.bind, Except.bind] at h
      | ok ts1 =>
        simp [ht, hts, Bind.bind, Except.bind] at h
        subst h
        unfold convertTables
        simp [convertTable_idem ht, convertTables_idem hts, Bind.bind, Except.bind]

/-- C6: canonicalization is idempotent — applying the Schema Canonicalizer
to an already-canonicalized model returns it unchanged, so
`canonicalize (canonicalize M)` equals `canonicalize M` whenever `M` is
valid (canonicalizes successfully). -/
theorem context_to_column_format_idempotent (m m' : SemanticModel)
    (h : context_to_column_format m = Except.ok m') :
    context_to_column_format m' = Except.ok m' := by
  unfold context_to_column_format at h ⊢
  cases hts : convertTables m.tables with
  | error e => simp [hts, Bind.bind, Except.bind] at h
  | ok ts =>
    simp [hts, Bind.bind, Except.bind] at h
    subst h
    simp [convertTables_idem hts, Bind.bind, Except.bind]

/-- Closed instance of the C6 theorem: canonicalizing the split-shape demo
model twice gives the same result as canonicalizing it once. -/
theorem context_to_column_format_idempotent_witness :
    context_to_column_format measureUniqueModel = Except.ok canonDemoModel ∧
    context_to_column_format canonDemoModel = Except.ok canonDemoModel :=
  ⟨by decide,
   context_to_column_format_idempotent measureUniqueModel canonDemoModel (by decide)⟩

/-- Appending a nonempty string to the logical-table prefix always yields a
logical table name. -/
theorem is_logical_table_of_append (n : String) (h : n ≠ "") :
    is_logical_table ("__" ++ n) = true := by
  unfold is_logical_table _LOGICAL_TABLE_PREFIX
  rw [Bool.and_eq_true]
  constructor
  · rw [List.isPrefixOf_iff_prefix, String.data_append]
    exact List.prefix_append _ _
  · rw [decide_eq_true_iff, String.length_append]
    have hne : n.data ≠ [] := fun hd => h (String.ext hd)
    have hlen : 0 < n.length := List.length_pos.mpr hne
    omega

/-- Canonicalizing one table preserves its name. -/
theorem convertTable_name {t t' : Table} (h : convertTable t = Except.ok t') :
    t'.name = t.name := by
  by_cases h1 : 0 < t.columns.length <;>
  by_cases h2 : 0 < t.dimensions.length <;>
  by_cases h3 : 0 < t.time_dimensions.length <;>
  by_cases h4 : 0 < t.measures.length <;>
  simp [convertTable, h1, h2, h3, h4] at h <;>
  subst h <;>
  rfl

/-- Canonicalizing a table list preserves the list of table names. -/
theorem convertTables_names : ∀ {ts ts' : List Table},
    convertTables ts = Except.ok ts' →
    ts'.map Table.name = ts.map Table.name
  | [], ts', h => by
    simp [convertTables] at h
    subst h
    rfl
  | t :: ts, ts', h => by
    unfold convertTables at h
    cases ht : convertTable t with
    | error e => simp [ht, Bind.bind, Except.bind] at h
    | ok t1 =>
      cases hts : convertTables ts with
      | error e => simp [ht, hts, Bind.bind, Except.bind] at h
      | ok ts1 =>
        simp [ht, hts, Bind.bind, Except.bind] at h
        subst h
        simp [convertTable_name ht, convertTables_names hts]

/-- A successful canonicalization is a successful `convertTables` on the
table list. -/
theorem context_to_column_format_tables {m ctx : SemanticModel}
    (h : context_to_column_format m = Except.ok ctx) :
    convertTables m.tables = Except.ok ctx.tables := by
  unfold context_to_column_format at h
  cases hts : convertTables m.tables with
  | error e => simp [hts, Bind.bind, Except.bind] at h
  | ok ts =>
    simp [hts, Bind.bind, Except.bind] at h
    subst h
    rfl

/-- A synthesized CTE carries the table's logical name as its alias. -/
theorem generate_cte_alias {parseExpr : String → Option SqlNode} {t : Table} {c : Cte}
    (h : _generate_cte_for parseExpr t = Except.ok c) :
    c.alias_ = logical_table_name t := by
  unfold _generate_cte_for at h
  cases hn : non_agg_column_names parseExpr t.columns with
  | error e => simp [hn, Bind.bind, Except.bind] at h
  | ok names =>
    simp [hn, Bind.bind, Except.bind] at h
    subst h
    rfl

/-- The aliases of the synthesized CTE list are the prefixed table names, in
model order. -/
theorem generate_ctes_aliases (parseExpr : String → Option SqlNode) :
    ∀ {ts : List Table} {gens : List Cte},
      generate_full_logical_table_ctes parseExpr ts = Except.ok gens →
      gens.map Cte.alias_ = ts.map (fun t => "__" ++ t.name)
  | [], gens, h => by
    simp [generate_full_logical_table_ctes] at h
    subst h
    rfl
  | t :: ts, gens, h => by
    unfold generate_full_logical_table_ctes at h
    cases hc : _generate_cte_for parseExpr t with
    | error e => simp [hc, Bind.bind, Except.bind] at h
    | ok c =>
      cases hcs : generate_full_logical_table_ctes parseExpr ts with
      | error e => simp [hc, hcs, Bind.bind, Except.bind] at h
      | ok cs =>
        simp [hc, hcs, Bind.bind, Except.bind] at h
        subst h
        simp [generate_cte_alias hc, generate_ctes_aliases parseExpr hcs]
        rfl

/-- Stripping as many times as there are CTEs, all with logical aliases,
removes the WITH clause entirely and keeps the body. -/
theorem stripN_strips : ∀ (gs : List Cte) (b : String), gs ≠ [] →
    (∀ c ∈ gs, is_logical_table c.alias_ = true) →
    stripN gs.length { withClause := some gs, body := b } =
      Except.ok { withClause := none, body := b }
  | [], _, h, _ => absurd rfl h
  | [c], b, _, hl => by
    simp [stripN, remove_ltable_cte, hl c (by simp), Bind.bind, Except.bind]
  | c :: c2 :: gs, b, _, hl => by
    have ih := stripN_strips (c2 :: gs) b (by simp)
      (fun x hx => hl x (List.mem_cons_of_mem _ hx))
    simp only [List.length_cons]
    unfold stripN
    simp [remove_ltable_cte, hl c (by simp), Bind.bind, Except.bind]
    exact ih

/-- C1 (amended): for a base query with no WITH clause and a model whose
table names are all nonempty and whose expansion succeeds, `expand` attaches
exactly one synthesized CTE per table; one `strip` application removes
exactly the first of them (leaving the tail, or no WITH clause when it was
the only one), and `|M.tables|` applications return exactly the original
query. -/
theorem expand_then_strip_round_trip (parseExpr : String → Option SqlNode)
    (q : Query) (m ctx : SemanticModel) (gens : List Cte)
    (hw : q.withClause = none)
    (hctx : context_to_column_format m = Except.ok ctx)
    (hg : generate_full_logical_table_ctes parseExpr ctx.tables = Except.ok gens)
    (hne : m.tables ≠ [])
    (hnames : ∀ t ∈ m.tables, t.name ≠ "") :
    expand_all_logical_tables_as_ctes parseExpr q m =
      Except.ok { withClause := some gens, body := q.body } ∧
    gens.length = m.tables.length ∧
    remove_ltable_cte { withClause := some gens, body := q.body } =
      Except.ok { withClause := if gens.tail.isEmpty then none else some gens.tail
                  body := q.body } ∧
    stripN m.tables.length { withClause := some gens, body := q.body } =
      Except.ok q := by
  obtain ⟨qw, qb⟩ := q
  simp only at hw
  subst hw
  have e1 : ∀ (ts : List Table), ts.map (fun t => "__" ++ t.name) =
      (ts.map Table.name).map (fun s => "__" ++ s) := by
    intro ts
    rw [List.map_map]
    rfl
  have hmapn : ctx.tables.map Table.name = m.tables.map Table.name :=
    convertTables_names (context_to_column_format_tables hctx)
  have hmapa2 : gens.map Cte.alias_ = m.tables.map (fun t => "__" ++ t.name) := by
    rw [generate_ctes_aliases parseExpr hg, e1, hmapn, ← e1]
  have hlen : gens.length = m.tables.length := by
    have := congrArg List.length hmapa2
    simpa using this
  have hlogical : ∀ c ∈ gens, is_logical_table c.alias_ = true := by
    intro c hc
    have hm : c.alias_ ∈ gens.map Cte.alias_ := List.mem_map_of_mem _ hc
    rw [hmapa2] at hm
    rcases List.mem_map.mp hm with ⟨t, ht, he⟩
    rw [← he]
    exact is_logical_table_of_append t.name (hnames t ht)
  have hgens_ne : gens ≠ [] := by
    intro hnil
    apply hne
    apply List.length_eq_zero.mp
    rw [← hlen, hnil]
    rfl
  obtain ⟨g, gs, rfl⟩ := List.exists_cons_of_ne_nil hgens_ne
  refine ⟨?_, hlen, ?_, ?_⟩
  · unfold expand_all_logical_tables_as_ctes
    simp [hctx, hg, Bind.bind, Except.bind]
  · have hlg := hlogical g (by simp)
    cases gs with
    | nil => simp [remove_ltable_cte, hlg]
    | cons g2 gs2 => simp [remove_ltable_cte, hlg]
  · rw [← hlen]
    exact stripN_strips (g :: gs) qb (by simp) hlogical

/-- Closed instance of the C1 theorem: scenario 2, expanding
`SELECT * FROM __fact` style queries with the one-table demo model and
stripping once returns the original query. -/
theorem expand_then_strip_round_trip_witness :
    expand_all_logical_tables_as_ctes demoParse { body := "SELECT 1" }
        { tables := [demoTable] } =
      Except.ok { withClause := some [demoCte], body := "SELECT 1" } ∧
    ([demoCte] : List Cte).length =
      ({ tables := [demoTable] } : SemanticModel).tables.length ∧
    remove_ltable_cte { withClause := some [demoCte], body := "SELECT 1" } =
      Except.ok { withClause := if ([demoCte] : List Cte).tail.isEmpty then none
                    else some ([demoCte] : List Cte).tail
                  body := "SELECT 1" } ∧
    stripN ({ tables := [demoTable] } : SemanticModel).tables.length
        { withClause := some [demoCte], body := "SELECT 1" } =
      Except.ok { body := "SELECT 1" } :=
  expand_then_strip_round_trip demoParse { body := "SELECT 1" }
    { tables := [demoTable] } { tables := [demoTable] } [demoCte]
    rfl (by decide) (by decide) (by decide) (by decide)

/-- C1 counterexample: with a table whose name is empty, expansion succeeds
(the CTE alias is the bare prefix `__`), but a single application of
`strip_logical_cte` fails instead of removing one logical CTE, because `__`
is not a logical table name. -/
theorem expand_strip_fails_on_empty_table_name :
    expand_all_logical_tables_as_ctes demoParse { body := "SELECT 1" }
        emptyNameModel =
      Except.ok
        { withClause := some [{ alias_ := "__", projections := ["x"], fromTable := "t" }]
          body := "SELECT 1" } ∧
    remove_ltable_cte
        { withClause := some [{ alias_ := "__", projections := ["x"], fromTable := "t" }]
          body := "SELECT 1" } =
      Except.error "Must contain the logical CTE." := by
  exact ⟨by decide, by decide⟩

/-- C8 counterexample: the single measure entry of `measureUniqueModel` has
`unique = true`, yet the column built from it by canonicalization has
`unique = false` — the measure loop never copies the `unique` field. -/
theorem measure_unique_dropped :
    (measureUniqueModel.tables.headD {}).measures.map Measure.unique = [true] ∧
    (context_to_column_format measureUniqueModel).toOption.map
        (fun m => (m.tables.headD {}).columns.map Column.unique) = some [false] := by
  exact ⟨by decide, by decide⟩

/-- C8 (amended): canonicalizing a split-shape table copies `name`,
`synonyms`, `description`, `expr`, `data_type` and `sample_values` for all
three split sequences, `unique` for dimensions and time dimensions only,
and `default_aggregation` for measures; a measure's column keeps the default
`unique = false`. -/
theorem convertTable_split_shape_fields (t t' : Table)
    (hcols : t.columns = [])
    (h : convertTable t = Except.ok t') :
    t'.columns.take t.dimensions.length =
      t.dimensions.map (fun d =>
        { name := d.name, synonyms := d.synonyms, description := d.description
          expr := d.expr, data_type := d.data_type, kind := ColumnKind.dimension
          unique := d.unique, default_aggregation := ""
          sample_values := d.sample_values }) ∧
    ((t'.columns.drop t.dimensions.length).take t.time_dimensions.length =
      t.time_dimensions.map (fun td =>
        { name := td.name, synonyms := td.synonyms, description := td.description
          expr := td.expr, data_type := td.data_type
          kind := ColumnKind.time_dimension
          unique := td.unique, default_aggregation := ""
          sample_values := td.sample_values })) ∧
    (t'.columns.drop (t.dimensions.length + t.time_dimensions.length) =
      t.measures.map (fun mm =>
        { name := mm.name, synonyms := mm.synonyms, description := mm.description
          expr := mm.expr, data_type := mm.data_type, kind := ColumnKind.measure
          unique := false, default_aggregation := mm.default_aggregation
          sample_values := mm.sample_values })) := by
  have h1 : ¬ 0 < t.columns.length := by simp [hcols]
  have hcols' : t'.columns =
      t.dimensions.map dimensionToColumn ++
        (t.time_dimensions.map timeDimensionToColumn ++
          t.measures.map measureToColumn) := by
    by_cases h2 : 0 < t.dimensions.length <;>
    by_cases h3 : 0 < t.time_dimensions.length <;>
    by_cases h4 : 0 < t.measures.length <;>
    simp [convertTable, h1, h2, h3, h4] at h <;>
    subst h <;>
    simp [hcols]
  rw [hcols']
  refine ⟨?_, ?_, ?_⟩
  · rw [show t.dimensions.length = (t.dimensions.map dimensionToColumn).length by simp]
    rw [List.take_left]
    rfl
  · rw [show t.dimensions.length = (t.dimensions.map dimensionToColumn).length by simp]
    rw [List.drop_left]
    rw [show t.time_dimensions.length =
      (t.time_dimensions.map timeDimensionToColumn).length by simp]
    rw [List.take_left]
    rfl
  · rw [← List.append_assoc]
    rw [show t.dimensions.length + t.time_dimensions.length =
      (t.dimensions.map dimensionToColumn ++
        t.time_dimensions.map timeDimensionToColumn).length by simp]
    rw [List.drop_left]
    rfl

/-- Closed instance of the amended C8 theorem on `splitDemoTable`: the
dimension and time-dimension columns keep `unique = true`, the measure
column comes out with `unique = false`. -/
theorem convertTable_split_shape_fields_witness :
    splitDemoTable.columns = [] ∧
    convertTable splitDemoTable = Except.ok splitDemoResult ∧
    (splitDemoResult.columns.take splitDemoTable.dimensions.length =
      splitDemoTable.dimensions.map (fun d =>
        { name := d.name, synonyms := d.synonyms, description := d.description
          expr := d.expr, data_type := d.data_type, kind := ColumnKind.dimension
          unique := d.unique, default_aggregation := ""
          sample_values := d.sample_values }) ∧
    ((splitDemoResult.columns.drop splitDemoTable.dimensions.length).take
        splitDemoTable.time_dimensions.length =
      splitDemoTable.time_dimensions.map (fun td =>
        { name := td.name, synonyms := td.synonyms, description := td.description
          expr := td.expr, data_type := td.data_type
          kind := ColumnKind.time_dimension
          unique := td.unique, default_aggregation := ""
          sample_values := td.sample_values })) ∧
    (splitDemoResult.columns.drop
        (splitDemoTable.dimensions.length + splitDemoTable.time_dimensions.length) =
      splitDemoTable.measures.map (fun mm =>
        { name := mm.name, synonyms := mm.synonyms, description := mm.description
          expr := mm.expr, data_type := mm.data_type, kind := ColumnKind.measure
          unique := false, default_aggregation := mm.default_aggregation
          sample_values := mm.sample_values }))) :=
  ⟨rfl, by decide,
   convertTable_split_shape_fields splitDemoTable splitDemoResult rfl (by decide)⟩

/-- Setting the cell just past a list overwrites only the appended
singleton. -/
theorem set_append_singleton {α : Type} (l : List α) (x y : α) :
    (l ++ [x]).set l.length y = l ++ [y] := by
  induction l with
  | nil => rfl
  | cons a l ih => simp [List.set, ih]

/-- Reading the cell just past a list returns the appended singleton. -/
theorem getD_append_singleton {α : Type} (l : List α) (x d : α) :
    (l ++ [x]).getD l.length d = x := by
  induction l with
  | nil => rfl
  | cons a l ih => simp [ih]

/-- A successful `convertTables` run determines the canonicalized model. -/
theorem context_to_column_format_eq {m : SemanticModel} {ts : List Table}
    (h : convertTables m.tables = Except.ok ts) :
    context_to_column_format m = Except.ok { m with tables := ts } := by
  unfold context_to_column_format
  rw [h]
  rfl

/-- C9: on the heap model, canonicalization leaves every pre-existing cell —
in particular the input model at `r` — exactly as it was, whether it returns
or raises, and on success it returns a reference to a fresh cell (distinct
from every pre-existing one) holding the canonicalized value of the input
model. -/
theorem context_to_column_format_heap_frame (h : List SemanticModel) (r : Nat)
    (hr : r < h.length) :
    (∀ i, i < h.length →
      (context_to_column_format_heap h r).1.getD i {} = h.getD i {}) ∧
    (∀ j, (context_to_column_format_heap h r).2 = Except.ok j →
      h.length ≤ j ∧ j ≠ r ∧
      Except.ok ((context_to_column_format_heap h r).1.getD j {}) =
        context_to_column_format (h.getD r {})) := by
  have hcopy : (h ++ [h.getD r {}]).getD h.length {} = h.getD r {} :=
    getD_append_singleton h _ {}
  unfold context_to_column_format_heap
  simp only [hcopy]
  cases hconv : convertTables ((h.getD r {}).tables) with
  | error e =>
    constructor
    · intro i hi
      exact List.getD_append _ _ _ _ hi
    · intro j hj
      cases hj
  | ok ts =>
    dsimp only
    constructor
    · intro i hi
      rw [set_append_singleton]
      exact List.getD_append _ _ _ _ hi
    · intro j hj
      cases hj
      refine ⟨Nat.le_refl _, fun hjr => absurd hr (by omega), ?_⟩
      rw [set_append_singleton, getD_append_singleton]
      exact (context_to_column_format_eq hconv).symm

/-- Closed instance of the C9 theorem on a one-cell heap: the input cell is
unchanged and the returned fresh cell holds the canonicalized model. -/
theorem context_to_column_format_heap_frame_witness :
    (context_to_column_format_heap [measureUniqueModel] 0).1.getD 0 {} =
      ([measureUniqueModel] : List SemanticModel).getD 0 {} ∧
    ((1 : Nat) ≤ 1 ∧ (1 : Nat) ≠ 0 ∧
      Except.ok ((context_to_column_format_heap [measureUniqueModel] 0).1.getD 1 {}) =
        context_to_column_format (([measureUniqueModel] : List SemanticModel).getD 0 {})) :=
  ⟨(context_to_column_format_heap_frame [measureUniqueModel] 0 (by decide)).1 0 (by decide),
   (context_to_column_format_heap_frame [measureUniqueModel] 0 (by decide)).2 1 (by decide)⟩
